import Mathlib

/-!
Shallow embedding of the execution-gateway resilience core of the
distributed-code-runner repository: the circuit breaker, the bounded
concurrency semaphore, the sliding-window rate limiter, the
Judge0Service.submitCode control flow, and the batch controllers.

Timestamps and durations are modelled as `Int` (JavaScript `Date.now()`
arithmetic on numbers is exact integer arithmetic in the ranges involved);
counters are `Nat`, with `Math.max(0, n - 1)` rendered as truncated `Nat`
subtraction.  JavaScript string-or-null values are `Option String`, and a
truthiness test (`if (x)`) on such a value is modelled explicitly where the
source performs one.
-/

/-- Substring search on lists of characters: true iff `pat` occurs
contiguously inside the second list. -/
def listContainsSub (pat : List Char) : List Char → Bool
  | [] => pat.isEmpty
  | c :: rest => pat.isPrefixOf (c :: rest) || listContainsSub pat rest

/-- Models JavaScript `s.includes(pat)`. -/
def strIncludes (s pat : String) : Bool :=
  listContainsSub pat.data s.data

/-- Models a JavaScript `Error` value as consumed by
`CircuitBreaker.isCircuitTripError`: an optional `code` property and a
`message` string. -/
structure JsError where
  code : Option String
  message : String
deriving DecidableEq

/-- JavaScript truthiness of a nullable number (`null` and `0` are falsy). -/
def truthyInt : Option Int → Bool
  | none => false
  | some t => t != 0

/-- Ceiling division `Math.ceil(a / b)` for integers, `b > 0`. -/
def jsCeilDiv (a b : Int) : Int :=
  -((-a).fdiv b)

-- ========================================
-- CIRCUIT BREAKER (src/unnamed/part_010, lines 47-198)
-- ========================================

inductive CircuitState
  | CLOSED
  | OPEN
  | HALF_OPEN
deriving DecidableEq

structure CircuitBreakerConfig where
  failureThreshold : Nat
  successThreshold : Nat
  openDurationMs : Int
  halfOpenMaxRequests : Nat
deriving DecidableEq

def DEFAULT_CIRCUIT_CONFIG : CircuitBreakerConfig :=
  { failureThreshold := 5
    successThreshold := 3
    openDurationMs := 30000
    halfOpenMaxRequests := 2 }

structure CircuitBreaker where
  state : CircuitState := .CLOSED
  consecutiveFailures : Nat := 0
  consecutiveSuccesses : Nat := 0
  openedAt : Option Int := none
  halfOpenRequestsInFlight : Nat := 0
  config : CircuitBreakerConfig := DEFAULT_CIRCUIT_CONFIG
deriving DecidableEq

structure CanProceedResult where
  allowed : Bool
  reason : Option String := none
deriving DecidableEq

/-- Models `CircuitBreaker.transitionTo`: sets the new state and resets the
counters exactly as the source does for each target state. -/
def CircuitBreaker.transitionTo (cb : CircuitBreaker) (newState : CircuitState) :
    CircuitBreaker :=
  let cb := { cb with state := newState }
  match newState with
  | .CLOSED =>
      { cb with consecutiveFailures := 0, consecutiveSuccesses := 0
                openedAt := none, halfOpenRequestsInFlight := 0 }
  | .HALF_OPEN =>
      { cb with consecutiveSuccesses := 0, halfOpenRequestsInFlight := 0 }
  | .OPEN => cb

/-- The HALF_OPEN arm of the `switch` in `canProceed` (the OPEN arm falls
through into it after a lazy transition). -/
def CircuitBreaker.halfOpenCheck (cb : CircuitBreaker) :
    CanProceedResult × CircuitBreaker :=
  if cb.config.halfOpenMaxRequests ≤ cb.halfOpenRequestsInFlight then
    ({ allowed := false, reason := some "Circuit HALF_OPEN - testing recovery" }, cb)
  else
    ({ allowed := true },
     { cb with halfOpenRequestsInFlight := cb.halfOpenRequestsInFlight + 1 })

/-- Models `CircuitBreaker.canProceed`.  The source guards the OPEN arm with
`if (this.openedAt && ...)`, a JavaScript truthiness test, modelled by
`truthyInt`. -/
def CircuitBreaker.canProceed (cb : CircuitBreaker) (now : Int) :
    CanProceedResult × CircuitBreaker :=
  match cb.state with
  | .CLOSED => ({ allowed := true }, cb)
  | .OPEN =>
      if truthyInt cb.openedAt ∧ cb.config.openDurationMs ≤ now - cb.openedAt.getD 0 then
        (cb.transitionTo .HALF_OPEN).halfOpenCheck
      else
        let remainingMs :=
          if truthyInt cb.openedAt then
            cb.config.openDurationMs - (now - cb.openedAt.getD 0)
          else
            cb.config.openDurationMs
        ({ allowed := false
           reason := some ("Circuit OPEN - Judge0 unavailable. Retry in "
                            ++ toString (jsCeilDiv remainingMs 1000) ++ "s") }, cb)
  | .HALF_OPEN => cb.halfOpenCheck

/-- Models `CircuitBreaker.recordSuccess`.  `Math.max(0, inFlight - 1)` is
truncated `Nat` subtraction. -/
def CircuitBreaker.recordSuccess (cb : CircuitBreaker) : CircuitBreaker :=
  let cb := { cb with consecutiveFailures := 0
                      consecutiveSuccesses := cb.consecutiveSuccesses + 1 }
  if cb.state = .HALF_OPEN then
    let cb := { cb with halfOpenRequestsInFlight := cb.halfOpenRequestsInFlight - 1 }
    if cb.config.successThreshold ≤ cb.consecutiveSuccesses then
      cb.transitionTo .CLOSED
    else
      cb
  else
    cb

/-- Models `CircuitBreaker.tripCircuit` (the `reason` argument is only
logged and is dropped here). -/
def CircuitBreaker.tripCircuit (cb : CircuitBreaker) (now : Int) : CircuitBreaker :=
  ({ cb with openedAt := some now, halfOpenRequestsInFlight := 0 }).transitionTo .OPEN

/-- Models `CircuitBreaker.recordFailure`; `now` stands for the `Date.now()`
read inside `tripCircuit`. -/
def CircuitBreaker.recordFailure (cb : CircuitBreaker) (now : Int) : CircuitBreaker :=
  let cb := { cb with consecutiveSuccesses := 0
                      consecutiveFailures := cb.consecutiveFailures + 1 }
  match cb.state with
  | .HALF_OPEN =>
      ({ cb with halfOpenRequestsInFlight := cb.halfOpenRequestsInFlight - 1 }).tripCircuit now
  | .CLOSED =>
      if cb.config.failureThreshold ≤ cb.consecutiveFailures then
        cb.tripCircuit now
      else
        cb
  | .OPEN => cb

/-- Models the static `CircuitBreaker.isCircuitTripError` classification.
The checks run in source order: connection codes and the substrings
"socket hang up" / "timeout" first, then "HTTP 5", then "HTTP 4", and
everything else defaults to counting as a failure. -/
def isCircuitTripError (err : JsError) : Bool :=
  if err.code = some "ECONNRESET" ∨ err.code = some "ECONNREFUSED"
      ∨ err.code = some "ETIMEDOUT"
      ∨ strIncludes err.message "socket hang up"
      ∨ strIncludes err.message "timeout" then
    true
  else if strIncludes err.message "HTTP 5" then
    true
  else if strIncludes err.message "HTTP 4" then
    false
  else
    true

example : isCircuitTripError { code := none, message := "HTTP 400: Bad Request" } = false := by
  decide

example : isCircuitTripError { code := none, message := "HTTP 400: Read timeout" } = true := by
  decide

example : isCircuitTripError { code := some "ECONNREFUSED", message := "connect ECONNREFUSED" } = true := by
  decide

-- ========================================
-- RATE LIMITER (src/unnamed/part_002)
-- ========================================

/-- A per-minute quota, either a finite count or JavaScript `Infinity`
(the `admin` entry of `RATE_LIMITS.runsPerMinute`). -/
inductive Quota
  | fin (n : Nat)
  | infinity
deriving DecidableEq

inductive Role
  | admin
  | author
  | user
  | guest
deriving DecidableEq

/-- Models the `RATE_LIMITS.runsPerMinute` table. -/
def RATE_LIMITS_runsPerMinute : Role → Quota
  | .admin => .infinity
  | .author => .fin 10
  | .user => .fin 3
  | .guest => .fin 1

def WINDOW_MS : Int := 60 * 1000

/-- The identity-keyed map `userRateLimits`, as an association list from key
to the stored `timestamps` array of the entry. -/
abbrev RLState := List (String × List Int)

/-- Map lookup: the timestamps of the entry for `key`, or the fresh empty
entry the source inserts when the key is absent. -/
def lookupEntry (st : RLState) (key : String) : List Int :=
  match st.find? (fun p => p.1 = key) with
  | some p => p.2
  | none => []

/-- Map update: store `ts` as the entry for `key`. -/
def setEntry (st : RLState) (key : String) (ts : List Int) : RLState :=
  match st with
  | [] => [(key, ts)]
  | p :: rest => if p.1 = key then (key, ts) :: rest else p :: setEntry rest key ts

/-- `Math.min(...timestamps)` for a nonempty list. -/
def minList (l : List Int) : Int :=
  l.foldl min (l.headD 0)

structure RLResult where
  allowed : Bool
  remaining : Quota
  resetMs : Int
deriving DecidableEq

/-- Models `recordRequest`: prune timestamps outside the trailing window,
reject when the pruned count has reached the limit (reporting `resetMs`
from the oldest retained timestamp, or `now` substituted when none is
retained), otherwise append `now`.  `Math.max(0, limit - count - 1)` on a
finite limit is truncated `Nat` subtraction; on `Infinity` the JavaScript
arithmetic stays `Infinity`. -/
def recordRequest (st : RLState) (key : String) (limit : Quota) (now : Int) :
    RLResult × RLState :=
  let windowStart := now - WINDOW_MS
  let ts := (lookupEntry st key).filter (fun t => windowStart < t)
  let currentCount := ts.length
  let remaining : Quota :=
    match limit with
    | .fin n => .fin (n - currentCount - 1)
    | .infinity => .infinity
  let oldestInWindow : Int := if ts.length ≠ 0 then minList ts else now
  let resetMs : Int := max 0 ((oldestInWindow + WINDOW_MS) - now)
  let rejected : Bool :=
    match limit with
    | .fin n => n ≤ currentCount
    | .infinity => false
  if rejected then
    ({ allowed := false, remaining := .fin 0, resetMs := resetMs }, setEntry st key ts)
  else
    ({ allowed := true, remaining := remaining, resetMs := resetMs },
     setEntry st key (ts ++ [now]))

/-- The parts of the Express request that the middleware reads.  Header
values that can be string-or-array in Express are modelled as the string
case, the only shape the deployment produces. -/
structure Req where
  user : Option (String × Role)
  xForwardedFor : Option String
  xRealIp : Option String
  reqIp : Option String
  remoteAddress : Option String
deriving DecidableEq

/-- JavaScript `a || b` on a nullable string: empty strings are falsy. -/
def jsOrStr (a : Option String) (b : String) : String :=
  match a with
  | some s => if s = "" then b else s
  | none => b

/-- Models `getClientIP`: x-forwarded-for first (first comma-separated
element, trimmed), then x-real-ip, then `req.ip || socket.remoteAddress ||
'unknown'`. -/
def getClientIP (req : Req) : String :=
  match req.xForwardedFor with
  | some fwd =>
      if fwd = "" then jsOrStr req.xRealIp (jsOrStr req.reqIp (jsOrStr req.remoteAddress "unknown"))
      else ((fwd.splitOn ",").headD "").trim
  | none =>
      jsOrStr req.xRealIp (jsOrStr req.reqIp (jsOrStr req.remoteAddress "unknown"))

/-- Models `getUserId`: `user?.userId || null` (an empty userId is falsy and
collapses to null). -/
def getUserId (req : Req) : Option String :=
  match req.user with
  | some u => if u.1 = "" then none else some u.1
  | none => none

/-- Models `getUserRole`: the role of the verified user, else guest. -/
def getUserRole (req : Req) : Role :=
  match req.user with
  | some u => u.2
  | none => .guest

/-- Middleware outcome: pass the request on, or answer 429 with the
rate-limit metadata. -/
inductive MWOutcome
  | next
  | reject429 (retryAfterSecs : Int)
deriving DecidableEq

/-- Models `executionRateLimit` as the source stands: it resolves the key
and the quota, but at source lines 155-158 the admin-bypass condition is
commented out while its `return next()` is not, so the middleware returns
here unconditionally and the `recordRequest` / header / 429 logic below
that point is unreachable. -/
def executionRateLimit (st : RLState) (req : Req) (_now : Int) :
    MWOutcome × RLState :=
  let userId := getUserId req
  let role := getUserRole req
  let _key := jsOrStr userId (getClientIP req)
  let _limit := RATE_LIMITS_runsPerMinute role
  (MWOutcome.next, st)

example :
    (recordRequest [] "k" (.fin 1) 1000).1.allowed = true := by decide

example :
    (recordRequest [("k", [1000])] "k" (.fin 1) 2000).1.allowed = false := by decide

example :
    (recordRequest [("k", [1000])] "k" (.fin 1) 62000).1.allowed = true := by decide

-- ========================================
-- CONCURRENCY LIMITER (src/unnamed/part_010, lines 226-257)
-- ========================================

def MAX_CONCURRENT_JUDGE0_TASKS : Nat := 20

/-- State of the module-level semaphore.  `activeJudge0Tasks` and
`waitQueue` are the two mutable variables of the source; `resolvedPending`
holds the waiter whose promise `releaseJudge0Slot` has just resolved but
whose continuation (the `activeJudge0Tasks++` after the `await`) has not
run yet.  `suspendedLog` and `resumedLog` are history variables recording,
in order, the tasks that entered the wait queue and the tasks whose
continuations ran; they drive the FIFO statements and influence no
transition. -/
structure SemState where
  activeJudge0Tasks : Nat
  waitQueue : List Nat
  resolvedPending : List Nat
  suspendedLog : List Nat
  resumedLog : List Nat
deriving DecidableEq

def initSemState : SemState :=
  { activeJudge0Tasks := 0, waitQueue := [], resolvedPending := [],
    suspendedLog := [], resumedLog := [] }

/-- One scheduler step of the cooperative model: a task enters
`acquireJudge0Slot`, a resolved waiter resumes past its `await`, or a task
runs `releaseJudge0Slot`. -/
inductive SemStep
  | startAcquire (t : Nat)
  | resume (t : Nat)
  | release
deriving DecidableEq

/-- Small-step semantics of the semaphore under the Node event loop.
`startAcquire` and `release` are synchronous code reached from a macrotask,
and the continuation a `resolve()` schedules is a microtask that the event
loop runs before any further macrotask, so both are enabled only while no
resolved waiter is pending; an interleaving that violates this returns
`none`.  `Math.max(0, active - 1)` in the release path is truncated `Nat`
subtraction. -/
def semStep (s : SemState) : SemStep → Option SemState
  | .startAcquire t =>
      if s.resolvedPending.length ≠ 0 then none
      else if s.activeJudge0Tasks < MAX_CONCURRENT_JUDGE0_TASKS then
        some { s with activeJudge0Tasks := s.activeJudge0Tasks + 1 }
      else
        some { s with waitQueue := s.waitQueue ++ [t]
                      suspendedLog := s.suspendedLog ++ [t] }
  | .release =>
      if s.resolvedPending.length ≠ 0 then none
      else
        let s := { s with activeJudge0Tasks := s.activeJudge0Tasks - 1 }
        match s.waitQueue with
        | [] => some s
        | h :: tl => some { s with waitQueue := tl, resolvedPending := [h] }
  | .resume t =>
      if s.resolvedPending = [t] then
        some { s with resolvedPending := []
                      activeJudge0Tasks := s.activeJudge0Tasks + 1
                      resumedLog := s.resumedLog ++ [t] }
      else none

/-- Runs a list of scheduler steps, failing on any disabled step. -/
def semRun (s : SemState) : List SemStep → Option SemState
  | [] => some s
  | e :: es =>
      match semStep s e with
      | none => none
      | some s2 => semRun s2 es

-- ========================================
-- JUDGE0 SERVICE submitCode (src/unnamed/part_010, lines 321-377)
-- ========================================

structure SubmissionStatus where
  id : Nat
  description : String
deriving DecidableEq

/-- The decoded Judge0 submission result.  The transport base64
encode/decode steps are pure data plumbing that no claim mentions, so the
fetch oracle below hands over the already-decoded result. -/
structure SubmissionResult where
  stdout : Option String
  stderr : Option String
  compile_output : Option String
  message : Option String
  status : SubmissionStatus
  time : Option String
  memory : Option Int
deriving DecidableEq

/-- What the awaited `fetch` inside `submitCode` did: an OK response with a
decoded body, a non-OK response with a status code and error text (which
the source turns into `Error("HTTP <status>: <body>")`), or a thrown
connection-level error. -/
inductive FetchOutcome
  | ok (data : SubmissionResult)
  | httpError (status : Nat) (body : String)
  | netError (err : JsError)

/-- Observable actions of one `submitCode` call, in program order. -/
inductive SubmitEvent
  | acquire
  | fetchCall
  | recSuccess
  | recFailure
  | release
deriving DecidableEq

/-- Shared state touched by `submitCode`: the global breaker and the
semaphore active count (a single uncontended call takes the fast path of
`acquireJudge0Slot`; contention is covered by the `semStep` model). -/
structure Judge0State where
  breaker : CircuitBreaker
  semActive : Nat
deriving DecidableEq

/-- Models `Judge0Service.submitCode`: the circuit check runs first and a
denial throws before the slot is acquired and before the try/catch; on the
admitted path the slot is acquired, the call is made, and the outcome is
fed back (recordSuccess on OK; recordFailure only when
`isCircuitTripError` classifies the error as a trip error), with the slot
released in the `finally` on every path. -/
def submitCode (st : Judge0State) (now : Int) (outcome : FetchOutcome) :
    Except JsError SubmissionResult × Judge0State × List SubmitEvent :=
  let circuitCheck := st.breaker.canProceed now
  if circuitCheck.1.allowed = false then
    (.error { code := none
              message := "[CircuitBreaker] " ++ circuitCheck.1.reason.getD "" },
     { st with breaker := circuitCheck.2 }, [])
  else
    let breaker := circuitCheck.2
    let active := st.semActive + 1
    match outcome with
    | .ok data =>
        (.ok data,
         { breaker := breaker.recordSuccess, semActive := active - 1 },
         [.acquire, .fetchCall, .recSuccess, .release])
    | .httpError status body =>
        let err : JsError :=
          { code := none, message := "HTTP " ++ toString status ++ ": " ++ body }
        if isCircuitTripError err then
          (.error err,
           { breaker := breaker.recordFailure now, semActive := active - 1 },
           [.acquire, .fetchCall, .recFailure, .release])
        else
          (.error err,
           { breaker := breaker, semActive := active - 1 },
           [.acquire, .fetchCall, .release])
    | .netError err =>
        if isCircuitTripError err then
          (.error err,
           { breaker := breaker.recordFailure now, semActive := active - 1 },
           [.acquire, .fetchCall, .recFailure, .release])
        else
          (.error err,
           { breaker := breaker, semActive := active - 1 },
           [.acquire, .fetchCall, .release])

-- ========================================
-- BATCH CONTROLLER (src/code-runner-service/server/src/controllers/batch.ts)
-- ========================================

/-- A test case as it arrives in the request body of the runner batch
endpoint.  The wire object may carry an expected output, but `batchSubmit`
reads only `stdin` (validation also checks only `stdin`). -/
structure RunnerTestCase where
  stdin : Option String
  expected_output : Option String
deriving DecidableEq

/-- One row of the aggregate `results` array built by `batchSubmit`.  The
source reads `result.compileOutput`, a property that does not exist on a
`SubmissionResult` (the Judge0 field is `compile_output`), so that column
is always undefined, modelled as `none`. -/
structure BatchRow where
  testCase : Nat
  status : String
  statusId : Nat
  output : Option String
  stderr : Option String
  compileOutput : Option String
  time : Option String
  memory : Option Int
deriving DecidableEq

/-- The call trace of a batch: the start and the completion of the i-th
`judge0Service.submitCode` call. -/
inductive CallEvent
  | callStart (i : Nat)
  | callEnd (i : Nat)
deriving DecidableEq

/-- The for-loop of `batchSubmit` from index `i`: each test case awaits one
`submitCode` call (outcome supplied by the oracle `exec`) before the next
iteration begins, pushing a result row on success and an error row when the
call throws. -/
def runBatchAux (exec : Nat → Except JsError SubmissionResult) :
    Nat → List RunnerTestCase → List BatchRow × List CallEvent
  | _, [] => ([], [])
  | i, _tc :: rest =>
      let row : BatchRow :=
        match exec i with
        | .ok r =>
            { testCase := i + 1, status := r.status.description,
              statusId := r.status.id, output := r.stdout, stderr := r.stderr,
              compileOutput := none, time := r.time, memory := r.memory }
        | .error e =>
            { testCase := i + 1, status := "Error", statusId := 0,
              output := none, stderr := some e.message, compileOutput := none,
              time := none, memory := none }
      let restRun := runBatchAux exec (i + 1) rest
      (row :: restRun.1, CallEvent.callStart i :: CallEvent.callEnd i :: restRun.2)

/-- Models the execution loop of `batchSubmit` over a validated body. -/
def runBatch (tcs : List RunnerTestCase) (exec : Nat → Except JsError SubmissionResult) :
    List BatchRow × List CallEvent :=
  runBatchAux exec 0 tcs

/-- The strictly sequential trace from index `i`: each call completes
before the next starts. -/
def seqTraceFrom (i : Nat) : Nat → List CallEvent
  | 0 => []
  | n + 1 => CallEvent.callStart i :: CallEvent.callEnd i :: seqTraceFrom (i + 1) n

/-- The strictly sequential trace of n calls: call i completes before call
i+1 starts, so at no point is more than one call outstanding. -/
def seqTrace (n : Nat) : List CallEvent :=
  seqTraceFrom 0 n

-- ========================================
-- CLIENT BATCH ROUTE (src/code-client/app/api/execute/batch/route.ts)
-- ========================================

/-- A test case of the client batch route body. -/
structure ClientTestCase where
  input : String
  expectedOutput : Option String
deriving DecidableEq

/-- One element of the `results` array of the client batch route: the
spread execution result plus the echoed input/expected output and the
`passed` mark. -/
structure TestCaseResult where
  result : SubmissionResult
  input : String
  expectedOutput : Option String
  passed : Bool
deriving DecidableEq

/-- Splits a character list at every character satisfying `p`, keeping
empty groups, like `String.prototype.split` on a single-character class. -/
def splitChars (p : Char → Bool) : List Char → List (List Char)
  | [] => [[]]
  | c :: rest =>
      let r := splitChars p rest
      if p c then [] :: r
      else
        match r with
        | [] => [[c]]
        | g :: gs => (c :: g) :: gs

/-- Models `String.prototype.trim`. -/
def trimChars (l : List Char) : List Char :=
  ((l.dropWhile Char.isWhitespace).reverse.dropWhile Char.isWhitespace).reverse

/-- Models `tokensMatch`: trim both sides, split on whitespace (a split on
`/\s+/` yields the same nonempty groups as a split on single whitespace
characters once empty strings are filtered out), drop empty tokens, then
require equal length and elementwise equality. -/
def tokensMatch (actual expected : String) : Bool :=
  let actualTokens := (splitChars Char.isWhitespace (trimChars actual.data)).filter
    (fun t => t.length ≠ 0)
  let expectedTokens := (splitChars Char.isWhitespace (trimChars expected.data)).filter
    (fun t => t.length ≠ 0)
  if actualTokens.length ≠ expectedTokens.length then false
  else (actualTokens.zip expectedTokens).all (fun p => p.1 = p.2)

/-- The `passed` computation of the client route for one test case:
`testCase.expectedOutput ? tokensMatch(result.stdout ?? "", expected) :
result.status.id === 3` — a JavaScript truthiness test, so an absent or
empty expected output falls to the status check. -/
def routePassed (expectedOutput : Option String) (r : SubmissionResult) : Bool :=
  match expectedOutput with
  | some e => if e = "" then r.status.id = 3 else tokensMatch (r.stdout.getD "") e
  | none => r.status.id = 3

/-- The body of the `Promise.all(testCases.map(...))` of the client batch
route from index `i`: the mock executor is abstracted by the oracle `exec`
and the rows keep the order of `testCases`. -/
def routeBatchAux (exec : Nat → SubmissionResult) :
    Nat → List ClientTestCase → List TestCaseResult
  | _, [] => []
  | i, tc :: rest =>
      let r := exec i
      { result := r, input := tc.input, expectedOutput := tc.expectedOutput,
        passed := routePassed tc.expectedOutput r }
        :: routeBatchAux exec (i + 1) rest

/-- Models the result assembly of the client batch route. -/
def routeBatch (tcs : List ClientTestCase) (exec : Nat → SubmissionResult) :
    List TestCaseResult :=
  routeBatchAux exec 0 tcs

/-- Modelled from the claim wording, for comparison against the code: a
test case is marked passed by exact-token comparison of its output against
the provided expected output, or by status id == 3 when no expected output
is provided. -/
def claimPassedMarking (expectedOutput : Option String) (r : SubmissionResult) : Bool :=
  match expectedOutput with
  | some e => tokensMatch (r.stdout.getD "") e
  | none => r.status.id = 3

example : tokensMatch "42\n" "42" = true := by decide
example : tokensMatch " 1  2 " "1 2" = true := by decide
example : tokensMatch "42" "99" = false := by decide

-- ========================================
-- CLAIM THEOREMS
-- ========================================

/-- A guest request with no auth context and no proxy headers, arriving
from address 203.0.113.7. -/
def guestReq : Req :=
  { user := none, xForwardedFor := none, xRealIp := none,
    reqIp := some "203.0.113.7", remoteAddress := none }

/-- C1: the per-minute guest quota of 1 is NOT enforced by
`executionRateLimit`.  A guest issuing two requests one second apart has
both admitted and the rate-limit store never changes, because the
middleware returns `next()` unconditionally (the admin-bypass condition at
source lines 155-158 is commented out but its early return is not), while
the unreachable `recordRequest` path below it — the evident intent — would
have rejected the second request with remaining = 0. -/
theorem executionRateLimit_guest_quota_not_enforced :
    (executionRateLimit [] guestReq 1000).1 = MWOutcome.next
    ∧ (executionRateLimit ((executionRateLimit [] guestReq 1000).2) guestReq 2000).1
        = MWOutcome.next
    ∧ (executionRateLimit ((executionRateLimit [] guestReq 1000).2) guestReq 2000).2 = []
    ∧ (recordRequest [("203.0.113.7", [1000])] "203.0.113.7"
        (RATE_LIMITS_runsPerMinute (getUserRole guestReq)) 2000).1.allowed = false
    ∧ (recordRequest [("203.0.113.7", [1000])] "203.0.113.7"
        (RATE_LIMITS_runsPerMinute (getUserRole guestReq)) 2000).1.remaining = .fin 0 := by
  decide

/-- A breaker in HALF_OPEN with no trial request in flight, as produced by
the lazy OPEN-to-HALF_OPEN transition. -/
def halfOpenBreaker : CircuitBreaker := { state := .HALF_OPEN }

/-- C2: the reserve-then-confirm pairing is broken on the 4xx exit path.
With the breaker HALF_OPEN, `canProceed` admits the call (reserving the
trial slot), the executor answers HTTP 400, and `submitCode` invokes
neither `recordSuccess` nor `recordFailure` (the catch only records when
`isCircuitTripError` holds, which is false for "HTTP 4" messages), leaving
`halfOpenRequestsInFlight` stuck at 1. -/
theorem submitCode_halfOpen_4xx_skips_record :
    (halfOpenBreaker.canProceed 1000).1.allowed = true
    ∧ (submitCode ⟨halfOpenBreaker, 0⟩ 1000 (.httpError 400 "Bad Request")).2.2.count
        .recSuccess = 0
    ∧ (submitCode ⟨halfOpenBreaker, 0⟩ 1000 (.httpError 400 "Bad Request")).2.2.count
        .recFailure = 0
    ∧ (submitCode ⟨halfOpenBreaker, 0⟩ 1000
        (.httpError 400 "Bad Request")).2.1.breaker.halfOpenRequestsInFlight = 1 := by
  decide

/-- C5 counterexample: a rejecting check with no retained timestamp returns
resetMs = 60000 (the source substitutes `now` for the missing oldest
timestamp, so `max(0, now + WINDOW - now)` is the full window), not the 0
the claim states. -/
theorem recordRequest_empty_window_resetMs_60000 :
    (recordRequest [] "guest-key" (.fin 0) 5000).1.allowed = false
    ∧ (recordRequest [] "guest-key" (.fin 0) 5000).1.resetMs = 60000 := by
  decide

/-- An accepted run whose stdout is the token 42. -/
def accepted42 : SubmissionResult :=
  { stdout := some "42\n", stderr := none, compile_output := none, message := none,
    status := { id := 3, description := "Accepted" }, time := some "0.01",
    memory := some 3000 }

/-- C4 counterexample: the aggregate built by `batchSubmit` carries no
passed marking.  Two one-case batches that differ only in the expected
output (42 versus 99, against actual output 42) produce identical
aggregates — `batchSubmit` never reads the expected output — although the
claimed token-comparison marking distinguishes them. -/
theorem batchSubmit_no_passed_marking :
    runBatch [{ stdin := some "5", expected_output := some "42" }]
        (fun _ => .ok accepted42)
      = runBatch [{ stdin := some "5", expected_output := some "99" }]
        (fun _ => .ok accepted42)
    ∧ claimPassedMarking (some "42") accepted42 = true
    ∧ claimPassedMarking (some "99") accepted42 = false := by
  decide

/-- C8 counterexample: an executor 4xx response whose error text contains
the word timeout is classified as a trip error (the "timeout" substring
check runs before the "HTTP 4" exclusion), so `submitCode` records a
failure and `consecutiveFailures` rises from 0 to 1 despite the response
being a 4xx. -/
theorem submitCode_4xx_timeout_text_counts_failure :
    ({} : CircuitBreaker).consecutiveFailures = 0
    ∧ (submitCode ⟨{}, 0⟩ 0
        (.httpError 400 "Read timeout")).2.1.breaker.consecutiveFailures = 1
    ∧ (submitCode ⟨{}, 0⟩ 0 (.httpError 400 "Read timeout")).2.2.count
        .recFailure = 1 := by
  decide

/-- Folding `min` over a list stays within the initial element and the
list. -/
theorem foldlMin_mem (as : List Int) : ∀ a : Int, as.foldl min a ∈ a :: as := by
  induction as with
  | nil => intro a; simp
  | cons c cs ih =>
      intro a
      have h := ih (min a c)
      rw [List.mem_cons] at h
      rcases min_choice a c with h1 | h1 <;> rw [h1] at h <;>
        simp only [List.foldl_cons, h1] <;> rcases h with h | h <;> simp [h]

/-- The minimum of a nonempty list is one of its elements. -/
theorem minList_mem (l : List Int) (h : l ≠ []) : minList l ∈ l := by
  cases l with
  | nil => exact absurd rfl h
  | cons a as =>
      have := foldlMin_mem as a
      simpa [minList] using this

/-- The resetMs field of a `recordRequest` result, on either branch: the
window end measured from the oldest retained timestamp, with `now`
substituted when nothing is retained. -/
theorem recordRequest_resetMs_eq (st : RLState) (key : String) (limit : Quota)
    (now : Int) :
    (recordRequest st key limit now).1.resetMs
      = max 0 (((if ((lookupEntry st key).filter (fun t => now - WINDOW_MS < t)).length ≠ 0
            then minList ((lookupEntry st key).filter (fun t => now - WINDOW_MS < t))
            else now)
          + WINDOW_MS) - now) := by
  simp only [recordRequest]
  split <;> rfl

/-- C5 (amended): for every rate-limit check that rejects a key, the
returned resetMs equals (oldest retained timestamp + 60000) - now — a
strictly positive quantity, so the max-with-0 clamp never engages — when at
least one timestamp is retained in the window, and equals 60000 (the full
window, from the source substituting `now` for the missing oldest
timestamp) when no timestamps are retained. -/
theorem recordRequest_reject_resetMs (st : RLState) (key : String) (limit : Quota)
    (now : Int) (_hrej : (recordRequest st key limit now).1.allowed = false) :
    ((lookupEntry st key).filter (fun t => now - WINDOW_MS < t) ≠ [] →
      (recordRequest st key limit now).1.resetMs
          = minList ((lookupEntry st key).filter (fun t => now - WINDOW_MS < t))
              + WINDOW_MS - now
        ∧ 0 < (recordRequest st key limit now).1.resetMs)
    ∧ ((lookupEntry st key).filter (fun t => now - WINDOW_MS < t) = [] →
      (recordRequest st key limit now).1.resetMs = WINDOW_MS) := by
  have hbase := recordRequest_resetMs_eq st key limit now
  constructor
  · intro hne
    have hmem := minList_mem _ hne
    have hgt : now - WINDOW_MS < minList ((lookupEntry st key).filter
        (fun t => now - WINDOW_MS < t)) := by
      have := List.of_mem_filter hmem
      simpa using this
    have hlen : (((lookupEntry st key).filter
        (fun t => now - WINDOW_MS < t)).length ≠ 0) := by
      simpa [List.length_eq_zero] using hne
    rw [hbase, if_pos hlen]
    constructor
    · omega
    · omega
  · intro he
    have hlen : ¬(((lookupEntry st key).filter
        (fun t => now - WINDOW_MS < t)).length ≠ 0) := by
      simp [he]
    rw [hbase, if_neg hlen]
    simp [WINDOW_MS]

/-- Witness for C5 (amended): a user key with one request at t=1000 and
quota 1 is rejected at t=2000 with resetMs = 59000. -/
theorem recordRequest_reject_resetMs_witness :
    (recordRequest [("k", [1000])] "k" (.fin 1) 2000).1.allowed = false
    ∧ (recordRequest [("k", [1000])] "k" (.fin 1) 2000).1.resetMs = 59000 := by
  refine ⟨by decide, ?_⟩
  have h := (recordRequest_reject_resetMs [("k", [1000])] "k" (.fin 1) 2000
    (by decide)).1 (by decide)
  rw [h.1]
  decide

/-- `canProceed` never changes the consecutive-failure counter: denials
leave the breaker alone (or, on the lazy OPEN to HALF_OPEN transition,
reset only successes and in-flight trials), and admissions touch only the
in-flight counter. -/
theorem canProceed_preserves_consecutiveFailures (cb : CircuitBreaker) (now : Int) :
    ((cb.canProceed now).2).consecutiveFailures = cb.consecutiveFailures := by
  cases hs : cb.state
  · simp [CircuitBreaker.canProceed, hs]
  · simp only [CircuitBreaker.canProceed, hs]
    split
    · simp only [CircuitBreaker.transitionTo, CircuitBreaker.halfOpenCheck]
      split <;> rfl
    · rfl
  · simp only [CircuitBreaker.canProceed, CircuitBreaker.halfOpenCheck, hs]
    split <;> rfl

/-- C8 (amended): an executor 4xx response never changes
`consecutiveFailures` in any breaker state, provided its error text
contains none of the connection-class markers that `isCircuitTripError`
checks before the "HTTP 4" exclusion ("timeout", "socket hang up",
"HTTP 5"); on that path `submitCode` records no failure at all. -/
theorem submitCode_clean4xx_preserves_consecutiveFailures
    (st : Judge0State) (now : Int) (status : Nat) (body : String)
    (h4 : strIncludes ("HTTP " ++ toString status ++ ": " ++ body) "HTTP 4" = true)
    (h5 : strIncludes ("HTTP " ++ toString status ++ ": " ++ body) "HTTP 5" = false)
    (ht : strIncludes ("HTTP " ++ toString status ++ ": " ++ body) "timeout" = false)
    (hh : strIncludes ("HTTP " ++ toString status ++ ": " ++ body) "socket hang up" = false) :
    (submitCode st now (.httpError status body)).2.1.breaker.consecutiveFailures
      = st.breaker.consecutiveFailures
    ∧ (submitCode st now (.httpError status body)).2.2.count .recFailure = 0 := by
  have htrip : isCircuitTripError
      { code := none, message := "HTTP " ++ toString status ++ ": " ++ body } = false := by
    simp [isCircuitTripError, h4, h5, ht, hh]
  have hcf := canProceed_preserves_consecutiveFailures st.breaker now
  by_cases hc : (st.breaker.canProceed now).1.allowed = false
  · simp only [submitCode, hc]
    exact ⟨hcf, rfl⟩
  · simp only [submitCode, hc, htrip]
    exact ⟨hcf, rfl⟩

/-- Witness for C8 (amended): a plain HTTP 400 with body "Bad Request"
satisfies the marker hypotheses and leaves the default CLOSED breaker at
zero consecutive failures. -/
theorem submitCode_clean4xx_preserves_consecutiveFailures_witness :
    strIncludes ("HTTP " ++ toString 400 ++ ": " ++ "Bad Request") "HTTP 4" = true
    ∧ (submitCode ⟨{}, 0⟩ 0
        (.httpError 400 "Bad Request")).2.1.breaker.consecutiveFailures
      = (⟨{}, 0⟩ : Judge0State).breaker.consecutiveFailures :=
  ⟨by decide,
   (submitCode_clean4xx_preserves_consecutiveFailures ⟨{}, 0⟩ 0 400 "Bad Request"
      (by decide) (by decide) (by decide) (by decide)).1⟩

/-- C10: a `canProceed` denial never feeds back into the breaker or the
semaphore.  When the circuit check denies a `submitCode` call, the call
throws the circuit-breaker error before the slot acquisition and before
the try/catch: no event happens (no acquire, no network call, no record,
no release), the semaphore count is untouched, and `consecutiveFailures`
is unchanged. -/
theorem submitCode_denied_no_feedback (st : Judge0State) (now : Int)
    (outcome : FetchOutcome)
    (hd : (st.breaker.canProceed now).1.allowed = false) :
    (submitCode st now outcome).1
        = .error { code := none
                   message := "[CircuitBreaker] "
                     ++ ((st.breaker.canProceed now).1.reason.getD "") }
    ∧ (submitCode st now outcome).2.2 = []
    ∧ (submitCode st now outcome).2.1.semActive = st.semActive
    ∧ (submitCode st now outcome).2.1.breaker.consecutiveFailures
        = st.breaker.consecutiveFailures := by
  have hcf := canProceed_preserves_consecutiveFailures st.breaker now
  rcases outcome with data | ⟨status, body⟩ | err <;>
    simp only [submitCode, hd] <;>
    exact ⟨rfl, rfl, rfl, hcf⟩

/-- Witness for C10: with the breaker opened at t=1000 and the cooldown not
yet over at t=2000, the denial leaves the semaphore count and the failure
counter of a concrete state untouched and produces no events. -/
theorem submitCode_denied_no_feedback_witness :
    ((⟨{ state := .OPEN, openedAt := some 1000, consecutiveFailures := 5 }, 7⟩ :
        Judge0State).breaker.canProceed 2000).1.allowed = false
    ∧ (submitCode ⟨{ state := .OPEN, openedAt := some 1000, consecutiveFailures := 5 }, 7⟩
        2000 (.ok accepted42)).2.2 = []
    ∧ (submitCode ⟨{ state := .OPEN, openedAt := some 1000, consecutiveFailures := 5 }, 7⟩
        2000 (.ok accepted42)).2.1.semActive = 7 :=
  ⟨by decide,
   (submitCode_denied_no_feedback _ 2000 (.ok accepted42) (by decide)).2.1,
   (submitCode_denied_no_feedback _ 2000 (.ok accepted42) (by decide)).2.2.1⟩

/-- Iterates `recordFailure` n times, all stamped at time `now`. -/
def recordFailures (cb : CircuitBreaker) (now : Int) : Nat → CircuitBreaker
  | 0 => cb
  | n + 1 => recordFailures (cb.recordFailure now) now n

/-- `recordFailure` never changes the breaker configuration. -/
theorem recordFailure_config (cb : CircuitBreaker) (now : Int) :
    (cb.recordFailure now).config = cb.config := by
  cases hs : cb.state <;>
    simp only [CircuitBreaker.recordFailure, CircuitBreaker.tripCircuit,
      CircuitBreaker.transitionTo, hs]
  split <;> rfl

/-- Iterated failures never change the breaker configuration. -/
theorem recordFailures_config (now : Int) :
    ∀ (n : Nat) (cb : CircuitBreaker), (recordFailures cb now n).config = cb.config := by
  intro n
  induction n with
  | zero => intro cb; rfl
  | succ m ih =>
      intro cb
      exact (ih (cb.recordFailure now)).trans (recordFailure_config cb now)

/-- A failure recorded while OPEN leaves the breaker OPEN with the same
opening timestamp. -/
theorem recordFailure_open (cb : CircuitBreaker) (now : Int)
    (hs : cb.state = .OPEN) :
    (cb.recordFailure now).state = .OPEN
    ∧ (cb.recordFailure now).openedAt = cb.openedAt := by
  simp [CircuitBreaker.recordFailure, hs]

/-- A failure recorded while CLOSED below the threshold only bumps the
counter. -/
theorem recordFailure_closed_no_trip (cb : CircuitBreaker) (now : Int)
    (hs : cb.state = .CLOSED)
    (hlt : cb.consecutiveFailures + 1 < cb.config.failureThreshold) :
    (cb.recordFailure now).state = .CLOSED
    ∧ (cb.recordFailure now).consecutiveFailures = cb.consecutiveFailures + 1
    ∧ (cb.recordFailure now).config = cb.config := by
  simp only [CircuitBreaker.recordFailure, hs]
  rw [if_neg (by omega)]
  exact ⟨rfl, rfl, rfl⟩

/-- A failure recorded while CLOSED at or above the threshold trips the
circuit: OPEN, openedAt stamped now. -/
theorem recordFailure_closed_trip (cb : CircuitBreaker) (now : Int)
    (hs : cb.state = .CLOSED)
    (hge : cb.config.failureThreshold ≤ cb.consecutiveFailures + 1) :
    (cb.recordFailure now).state = .OPEN
    ∧ (cb.recordFailure now).openedAt = some now := by
  simp only [CircuitBreaker.recordFailure, hs]
  rw [if_pos (by omega)]
  exact ⟨rfl, rfl⟩

/-- Once OPEN, iterated failures keep the breaker OPEN with the same
opening timestamp (OPEN arm of `recordFailure` only bumps counters). -/
theorem recordFailures_open_stable (now : Int) :
    ∀ (n : Nat) (cb : CircuitBreaker), cb.state = .OPEN →
      (recordFailures cb now n).state = .OPEN
      ∧ (recordFailures cb now n).openedAt = cb.openedAt := by
  intro n
  induction n with
  | zero => intro cb hs; exact ⟨hs, rfl⟩
  | succ m ih =>
      intro cb hs
      have h1 := recordFailure_open cb now hs
      have h2 := ih (cb.recordFailure now) h1.1
      exact ⟨h2.1, h2.2.trans h1.2⟩

/-- Enough consecutive failures from CLOSED trip the circuit to OPEN with
openedAt stamped at the failing time. -/
theorem recordFailures_trip (now : Int) :
    ∀ (n : Nat) (cb : CircuitBreaker), cb.state = .CLOSED → 1 ≤ n →
      cb.config.failureThreshold ≤ cb.consecutiveFailures + n →
      (recordFailures cb now n).state = .OPEN
      ∧ (recordFailures cb now n).openedAt = some now := by
  intro n
  induction n with
  | zero => intro cb _ h1 _; omega
  | succ m ih =>
      intro cb hs _ hth
      by_cases hc : cb.config.failureThreshold ≤ cb.consecutiveFailures + 1
      · have h1 := recordFailure_closed_trip cb now hs hc
        have h2 := recordFailures_open_stable now m (cb.recordFailure now) h1.1
        exact ⟨h2.1, h2.2.trans h1.2⟩
      · have h1 := recordFailure_closed_no_trip cb now hs (by omega)
        have hm : 1 ≤ m := by
          rcases Nat.eq_zero_or_pos m with h | h
          · subst h; omega
          · exact h
        have hcond : (cb.recordFailure now).config.failureThreshold
            ≤ (cb.recordFailure now).consecutiveFailures + m := by
          rw [h1.2.2, h1.2.1]
          omega
        exact ih (cb.recordFailure now) h1.1 hm hcond

/-- While OPEN with the cooldown not yet elapsed, `canProceed` denies. -/
theorem canProceed_open_denied (cb : CircuitBreaker) (t now2 : Int)
    (hs : cb.state = .OPEN) (hopen : cb.openedAt = some t)
    (hlt : now2 - t < cb.config.openDurationMs) :
    ((cb.canProceed now2).1).allowed = false := by
  simp only [CircuitBreaker.canProceed, hs, hopen]
  rw [if_neg]
  rintro ⟨-, h2⟩
  simp only [Option.getD_some] at h2
  omega

/-- C6: from CLOSED, any run of at least failureThreshold consecutive
connection-class failures (at least one) trips the breaker to OPEN with
openedAt stamped, and every subsequent `canProceed` call before
openDurationMs has elapsed since openedAt is denied. -/
theorem circuit_opens_after_failures_and_denies (cb : CircuitBreaker) (now : Int)
    (n : Nat) (hclosed : cb.state = .CLOSED) (h1 : 1 ≤ n)
    (hn : cb.config.failureThreshold ≤ n) :
    (recordFailures cb now n).state = .OPEN
    ∧ (recordFailures cb now n).openedAt = some now
    ∧ ∀ now2 : Int, now2 - now < cb.config.openDurationMs →
        (((recordFailures cb now n).canProceed now2).1).allowed = false := by
  have htrip := recordFailures_trip now n cb hclosed h1 (by omega)
  refine ⟨htrip.1, htrip.2, ?_⟩
  intro now2 hlt
  have hcfg := recordFailures_config now n cb
  exact canProceed_open_denied _ now now2 htrip.1 htrip.2 (by rw [hcfg]; exact hlt)

/-- Witness for C6: five failures at t=100 on a default breaker (threshold
5) open the circuit, and a call at t=2000 (1900ms into the 30000ms
cooldown) is denied. -/
theorem circuit_opens_after_failures_and_denies_witness :
    (recordFailures {} 100 5).state = .OPEN
    ∧ (((recordFailures {} 100 5).canProceed 2000).1).allowed = false :=
  ⟨(circuit_opens_after_failures_and_denies {} 100 5 rfl (by decide) (by decide)).1,
   (circuit_opens_after_failures_and_denies {} 100 5 rfl (by decide)
      (by decide)).2.2 2000 (by decide)⟩

/-- C7: (a) when the breaker is OPEN with a nonzero openedAt and at least
openDurationMs has elapsed, the next `canProceed` call transitions the
state to HALF_OPEN and — the trial capacity being positive — is itself
admitted as the single in-flight trial; (b) while HALF_OPEN at the trial
cap, callers are denied with the testing-recovery reason and the breaker is
unchanged; (c) while HALF_OPEN below the cap, callers are admitted and the
in-flight count rises by one, never past the cap. -/
theorem canProceed_halfOpen_transition_and_cap (cb : CircuitBreaker) (now t : Int) :
    (cb.state = .OPEN → cb.openedAt = some t → t ≠ 0 →
      cb.config.openDurationMs ≤ now - t → 0 < cb.config.halfOpenMaxRequests →
        ((cb.canProceed now).1).allowed = true
        ∧ ((cb.canProceed now).2).state = .HALF_OPEN
        ∧ ((cb.canProceed now).2).halfOpenRequestsInFlight = 1)
    ∧ (cb.state = .HALF_OPEN →
        cb.config.halfOpenMaxRequests ≤ cb.halfOpenRequestsInFlight →
        ((cb.canProceed now).1).allowed = false
        ∧ ((cb.canProceed now).1).reason = some "Circuit HALF_OPEN - testing recovery"
        ∧ (cb.canProceed now).2 = cb)
    ∧ (cb.state = .HALF_OPEN →
        cb.halfOpenRequestsInFlight < cb.config.halfOpenMaxRequests →
        ((cb.canProceed now).1).allowed = true
        ∧ ((cb.canProceed now).2).halfOpenRequestsInFlight
            = cb.halfOpenRequestsInFlight + 1
        ∧ ((cb.canProceed now).2).halfOpenRequestsInFlight
            ≤ cb.config.halfOpenMaxRequests) := by
  refine ⟨?_, ?_, ?_⟩
  · intro hs hopen ht helapsed hcap
    simp only [CircuitBreaker.canProceed, hs, hopen]
    rw [if_pos]
    · simp only [CircuitBreaker.transitionTo, CircuitBreaker.halfOpenCheck]
      rw [if_neg (by omega)]
      exact ⟨rfl, rfl, rfl⟩
    · refine ⟨?_, ?_⟩
      · simp [truthyInt, ht]
      · simpa using helapsed
  · intro hs hful
    simp only [CircuitBreaker.canProceed, CircuitBreaker.halfOpenCheck, hs]
    rw [if_pos hful]
    exact ⟨rfl, rfl, rfl⟩
  · intro hs hlt
    simp only [CircuitBreaker.canProceed, CircuitBreaker.halfOpenCheck, hs]
    rw [if_neg (by omega)]
    exact ⟨rfl, rfl, by simp; omega⟩

/-- Witness for C7: a breaker opened at t=1000 with the default 30000ms
cooldown is admitted at t=40000 into HALF_OPEN with one trial in flight,
and a HALF_OPEN breaker at the default cap of 2 trials is denied with the
testing-recovery reason. -/
theorem canProceed_halfOpen_transition_and_cap_witness :
    ((({ state := .OPEN, openedAt := some 1000 } : CircuitBreaker).canProceed
        40000).1).allowed = true
    ∧ ((({ state := .HALF_OPEN, halfOpenRequestsInFlight := 2 } :
          CircuitBreaker).canProceed 40000).1).reason
        = some "Circuit HALF_OPEN - testing recovery" :=
  ⟨((canProceed_halfOpen_transition_and_cap
      { state := .OPEN, openedAt := some 1000 } 40000 1000).1 rfl rfl (by decide)
      (by decide) (by decide)).1,
   ((canProceed_halfOpen_transition_and_cap
      { state := .HALF_OPEN, halfOpenRequestsInFlight := 2 } 40000 0).2.1 rfl
      (by decide)).2.1⟩

/-- The inductive invariant of the semaphore model: the active count never
exceeds the maximum; while a resolved waiter has not yet run its
continuation the active count is strictly below the maximum (the pending
increment is already accounted for); and the history equation ties the
suspension log to the resumption log, the pending waiter and the queue. -/
def SemInv (s : SemState) : Prop :=
  s.activeJudge0Tasks ≤ MAX_CONCURRENT_JUDGE0_TASKS
  ∧ (s.resolvedPending ≠ [] → s.activeJudge0Tasks < MAX_CONCURRENT_JUDGE0_TASKS)
  ∧ s.suspendedLog = s.resumedLog ++ s.resolvedPending ++ s.waitQueue

/-- Each enabled scheduler step preserves the semaphore invariant. -/
theorem semStep_inv {s s' : SemState} {e : SemStep} (h : semStep s e = some s')
    (hinv : SemInv s) : SemInv s' := by
  obtain ⟨hle, hpend, hlog⟩ := hinv
  have hmax : 0 < MAX_CONCURRENT_JUDGE0_TASKS := by decide
  cases e with
  | startAcquire t =>
      simp only [semStep] at h
      by_cases h1 : s.resolvedPending.length ≠ 0
      · rw [if_pos h1] at h
        exact absurd h (by simp)
      · rw [if_neg h1] at h
        have hpnil : s.resolvedPending = [] := by
          simpa [List.length_eq_zero] using h1
        by_cases h2 : s.activeJudge0Tasks < MAX_CONCURRENT_JUDGE0_TASKS
        · rw [if_pos h2] at h
          injection h with h
          subst h
          refine ⟨?_, ?_, ?_⟩ <;> dsimp only
          · omega
          · simp [hpnil]
          · exact hlog
        · rw [if_neg h2] at h
          injection h with h
          subst h
          refine ⟨?_, ?_, ?_⟩ <;> dsimp only
          · exact hle
          · simp [hpnil]
          · rw [hlog, hpnil]
            simp
  | release =>
      simp only [semStep] at h
      by_cases h1 : s.resolvedPending.length ≠ 0
      · rw [if_pos h1] at h
        exact absurd h (by simp)
      · rw [if_neg h1] at h
        have hpnil : s.resolvedPending = [] := by
          simpa [List.length_eq_zero] using h1
        rcases hq : s.waitQueue with _ | ⟨w, rest⟩
        · simp only [hq] at h
          injection h with h
          subst h
          refine ⟨?_, ?_, ?_⟩ <;> dsimp only
          · omega
          · simp [hpnil]
          · rw [hlog, hq]
        · simp only [hq] at h
          injection h with h
          subst h
          refine ⟨?_, ?_, ?_⟩ <;> dsimp only
          · omega
          · intro _
            omega
          · rw [hlog, hpnil, hq]
            simp
  | resume t =>
      simp only [semStep] at h
      by_cases h1 : s.resolvedPending = [t]
      · rw [if_pos h1] at h
        injection h with h
        subst h
        have hlt := hpend (by rw [h1]; simp)
        refine ⟨?_, ?_, ?_⟩ <;> dsimp only
        · omega
        · simp
        · rw [hlog, h1]
          simp
      · rw [if_neg h1] at h
        exact absurd h (by simp)

/-- Running enabled steps preserves the semaphore invariant. -/
theorem semRun_inv : ∀ (es : List SemStep) (s s' : SemState),
    semRun s es = some s' → SemInv s → SemInv s' := by
  intro es
  induction es with
  | nil =>
      intro s s' h hi
      simp only [semRun] at h
      injection h with h
      subst h
      exact hi
  | cons e rest ih =>
      intro s s' h hi
      simp only [semRun] at h
      rcases he : semStep s e with _ | s2 <;> rw [he] at h
      · exact absurd h (by simp)
      · exact ih s2 s' h (semStep_inv he hi)

/-- The initial semaphore state satisfies the invariant. -/
theorem semInv_init : SemInv initSemState := by
  refine ⟨by decide, by simp [initSemState], by simp [initSemState]⟩

/-- Along a release-free run, no waiter ever becomes resolved, so no resume
step can be enabled. -/
theorem semRun_no_release_pending :
    ∀ (es : List SemStep) (s s' : SemState), SemStep.release ∉ es →
      s.resolvedPending = [] → semRun s es = some s' →
      s'.resolvedPending = [] := by
  intro es
  induction es with
  | nil =>
      intro s s' _ hp h
      simp only [semRun] at h
      injection h with h
      subst h
      exact hp
  | cons e rest ih =>
      intro s s' hne hp h
      simp only [semRun] at h
      rcases he : semStep s e with _ | s2 <;> rw [he] at h
      · exact absurd h (by simp)
      · have hrest : SemStep.release ∉ rest := fun hc => hne (List.mem_cons_of_mem _ hc)
        have hs2 : s2.resolvedPending = [] := by
          cases e with
          | startAcquire t =>
              simp only [semStep] at he
              rw [if_neg (by simp [hp])] at he
              by_cases h2 : s.activeJudge0Tasks < MAX_CONCURRENT_JUDGE0_TASKS
              · rw [if_pos h2] at he
                injection he with he
                rw [← he]
                exact hp
              · rw [if_neg h2] at he
                injection he with he
                rw [← he]
                exact hp
          | release => exact absurd (List.mem_cons_self _ _) hne
          | resume t =>
              simp only [semStep] at he
              rw [if_neg (by simp [hp])] at he
              exact absurd he (by simp)
        exact ih s2 s' hrest hs2 h

/-- Running a concatenation runs the first part and continues from its
result. -/
theorem semRun_append (es1 es2 : List SemStep) :
    ∀ s : SemState, semRun s (es1 ++ es2)
      = match semRun s es1 with
        | none => none
        | some s1 => semRun s1 es2 := by
  induction es1 with
  | nil => intro s; rfl
  | cons e rest ih =>
      intro s
      simp only [List.cons_append, semRun]
      cases hse : semStep s e with
      | none => rfl
      | some s2 => exact ih s2

/-- C3: under every interleaving of acquire starts, waiter resumptions and
releases that the cooperative scheduler admits, the semaphore active count
never exceeds MAX_CONCURRENT_JUDGE0_TASKS (= 20), and a suspended waiter
only resumes after a release: every resume step in a valid run is preceded
by a release step. -/
theorem semaphore_bounded_and_resume_after_release (es : List SemStep)
    (s' : SemState) (h : semRun initSemState es = some s') :
    s'.activeJudge0Tasks ≤ MAX_CONCURRENT_JUDGE0_TASKS
    ∧ ∀ pre t post, es = pre ++ SemStep.resume t :: post →
        SemStep.release ∈ pre := by
  refine ⟨(semRun_inv es initSemState s' h semInv_init).1, ?_⟩
  intro pre t post heq
  by_contra hnr
  rw [heq] at h
  have happ := semRun_append pre (SemStep.resume t :: post) initSemState
  rw [h] at happ
  rcases hpre : semRun initSemState pre with _ | s1 <;> rw [hpre] at happ
  · exact absurd happ (by simp)
  · have hp1 : s1.resolvedPending = [] :=
      semRun_no_release_pending pre initSemState s1 hnr rfl hpre
    have hstep : semStep s1 (SemStep.resume t) = none := by
      simp [semStep, hp1]
    simp only [semRun, hstep] at happ
    exact absurd happ (by simp)

/-- Witness for C3: the two-step run of one acquire and one release ends
back in the initial state, whose active count respects the bound. -/
theorem semaphore_bounded_and_resume_after_release_witness :
    initSemState.activeJudge0Tasks ≤ MAX_CONCURRENT_JUDGE0_TASKS :=
  (semaphore_bounded_and_resume_after_release
    [SemStep.startAcquire 0, SemStep.release] initSemState (by decide)).1

/-- Starting below capacity with an empty queue and no pending waiter, a
run of acquire starts all takes the fast path, only raising the active
count. -/
theorem semRun_fill (ts : List Nat) :
    ∀ s : SemState, s.resolvedPending = [] → s.waitQueue = [] →
      s.activeJudge0Tasks + ts.length ≤ MAX_CONCURRENT_JUDGE0_TASKS →
      semRun s (ts.map SemStep.startAcquire)
        = some { s with activeJudge0Tasks := s.activeJudge0Tasks + ts.length } := by
  induction ts with
  | nil =>
      intro s hp hq hle
      simp [semRun]
  | cons t rest ih =>
      intro s hp hq hle
      have hlt : s.activeJudge0Tasks < MAX_CONCURRENT_JUDGE0_TASKS := by
        simp only [List.length_cons] at hle
        omega
      have hstep : semStep s (SemStep.startAcquire t)
          = some { s with activeJudge0Tasks := s.activeJudge0Tasks + 1 } := by
        simp only [semStep]
        rw [if_neg (by simp [hp]), if_pos hlt]
      simp only [List.map_cons, semRun, hstep]
      have hrec := ih { s with activeJudge0Tasks := s.activeJudge0Tasks + 1 }
        hp hq (by simp only [List.length_cons] at hle; dsimp only; omega)
      rw [hrec]
      have : s.activeJudge0Tasks + 1 + rest.length
          = s.activeJudge0Tasks + (t :: rest).length := by
        simp only [List.length_cons]
        omega
      rw [this]

/-- The semaphore state after the 20 direct admissions and the queued
21st caller `tLast`. -/
def semFull (tLast : Nat) : SemState :=
  { activeJudge0Tasks := MAX_CONCURRENT_JUDGE0_TASKS, waitQueue := [tLast],
    resolvedPending := [], suspendedLog := [tLast], resumedLog := [] }

/-- The semaphore state right after the release resolves the queued
waiter. -/
def semReleased (tLast : Nat) : SemState :=
  { activeJudge0Tasks := MAX_CONCURRENT_JUDGE0_TASKS - 1, waitQueue := [],
    resolvedPending := [tLast], suspendedLog := [tLast], resumedLog := [] }

/-- The semaphore state after the resolved waiter has resumed. -/
def semResumed (tLast : Nat) : SemState :=
  { activeJudge0Tasks := MAX_CONCURRENT_JUDGE0_TASKS, waitQueue := [],
    resolvedPending := [], suspendedLog := [tLast], resumedLog := [tLast] }

/-- C9: with the 20-slot semaphore, admitting 21 concurrent acquires makes
exactly the last caller suspend (the wait queue holds just that task); no
resume step is enabled until a release happens; a release hands the freed
slot to that longest-waiting caller, whose resumption restores the full
active count; and in every reachable state the resumption log is a prefix
of the suspension log, so waiters resume in FIFO arrival order. -/
theorem semaphore_fifo_suspend_resume (ts : List Nat) (tLast : Nat)
    (hlen : ts.length = MAX_CONCURRENT_JUDGE0_TASKS) :
    semRun initSemState (ts.map SemStep.startAcquire ++ [SemStep.startAcquire tLast])
        = some (semFull tLast)
    ∧ (∀ x, semStep (semFull tLast) (SemStep.resume x) = none)
    ∧ semStep (semFull tLast) SemStep.release = some (semReleased tLast)
    ∧ semStep (semReleased tLast) (SemStep.resume tLast) = some (semResumed tLast)
    ∧ ∀ (es : List SemStep) (s' : SemState), semRun initSemState es = some s' →
        ∃ rest, s'.suspendedLog = s'.resumedLog ++ rest := by
  refine ⟨?_, ?_, ?_, ?_, ?_⟩
  · have hfill := semRun_fill ts initSemState rfl rfl (by rw [hlen]; decide)
    have happ := semRun_append (ts.map SemStep.startAcquire)
      [SemStep.startAcquire tLast] initSemState
    rw [hfill] at happ
    dsimp only at happ
    rw [happ, hlen]
    simp [semRun, semStep, initSemState, semFull, MAX_CONCURRENT_JUDGE0_TASKS]
  · intro x
    simp [semStep, semFull]
  · simp [semStep, semFull, semReleased, MAX_CONCURRENT_JUDGE0_TASKS]
  · simp [semStep, semReleased, semResumed, MAX_CONCURRENT_JUDGE0_TASKS]
  · intro es s' h
    obtain ⟨-, -, hlog⟩ := semRun_inv es initSemState s' h semInv_init
    exact ⟨s'.resolvedPending ++ s'.waitQueue, by rw [hlog]; simp [List.append_assoc]⟩

/-- Witness for C9: 20 concrete acquires fill the semaphore and the 21st,
task 99, is the one left suspended in the queue. -/
theorem semaphore_fifo_suspend_resume_witness :
    semRun initSemState ((List.range 20).map SemStep.startAcquire
        ++ [SemStep.startAcquire 99]) = some (semFull 99) :=
  (semaphore_fifo_suspend_resume (List.range 20) 99 (by decide)).1

/-- The loop of `batchSubmit` produces one row per test case and the
strictly sequential call trace. -/
theorem runBatchAux_trace (exec : Nat → Except JsError SubmissionResult) :
    ∀ (tcs : List RunnerTestCase) (i : Nat),
      (runBatchAux exec i tcs).2 = seqTraceFrom i tcs.length
      ∧ (runBatchAux exec i tcs).1.length = tcs.length := by
  intro tcs
  induction tcs with
  | nil => intro i; exact ⟨rfl, rfl⟩
  | cons tc rest ih =>
      intro i
      have h := ih (i + 1)
      constructor
      · simp only [runBatchAux, seqTraceFrom, List.length_cons]
        rw [h.1]
      · simp only [runBatchAux, List.length_cons]
        rw [h.2]

/-- The rows of `batchSubmit` read nothing from a test case beyond its
position: two bodies of equal length yield identical rows and traces. -/
theorem runBatchAux_ignores_extras (exec : Nat → Except JsError SubmissionResult) :
    ∀ (tcs1 tcs2 : List RunnerTestCase) (i : Nat), tcs1.length = tcs2.length →
      runBatchAux exec i tcs1 = runBatchAux exec i tcs2 := by
  intro tcs1
  induction tcs1 with
  | nil =>
      intro tcs2 i h
      cases tcs2 with
      | nil => rfl
      | cons b rest2 => simp at h
  | cons a rest ih =>
      intro tcs2 i h
      cases tcs2 with
      | nil => simp at h
      | cons b rest2 =>
          simp only [List.length_cons] at h
          simp only [runBatchAux]
          rw [ih rest2 (i + 1) (by omega)]

/-- A placeholder execution result, used only as the `getD` default. -/
def emptyResult : SubmissionResult :=
  { stdout := none, stderr := none, compile_output := none, message := none,
    status := { id := 0, description := "" }, time := none, memory := none }

/-- Default client test case for `getD`. -/
def defaultClientTC : ClientTestCase := { input := "", expectedOutput := none }

/-- Default client row for `getD`. -/
def defaultTCResult : TestCaseResult :=
  { result := emptyResult, input := "", expectedOutput := none, passed := false }

/-- Row i of the client batch route carries the `passed` mark computed from
test case i and the i-th execution result. -/
theorem routeBatchAux_getD (exec : Nat → SubmissionResult) :
    ∀ (tcs : List ClientTestCase) (j i : Nat), i < tcs.length →
      ((routeBatchAux exec j tcs).getD i defaultTCResult).passed
        = routePassed ((tcs.getD i defaultClientTC).expectedOutput) (exec (j + i)) := by
  intro tcs
  induction tcs with
  | nil => intro j i h; simp at h
  | cons tc rest ih =>
      intro j i h
      cases i with
      | zero => simp [routeBatchAux]
      | succ m =>
          simp only [routeBatchAux, List.getD_cons_succ]
          have hrec := ih (j + 1) m (by simpa using h)
          rw [hrec]
          have harith : j + 1 + m = j + (m + 1) := by omega
          rw [harith]

/-- Where the expected output is not the empty string, the `passed`
computation of the client route coincides with the claim wording. -/
theorem routePassed_eq_claim (e : Option String) (r : SubmissionResult)
    (he : e ≠ some "") : routePassed e r = claimPassedMarking e r := by
  cases e with
  | none => rfl
  | some s =>
      simp only [routePassed, claimPassedMarking]
      rw [if_neg]
      intro hc
      exact he (by rw [hc])

/-- C4 (amended): `batchSubmit` makes exactly N executor calls strictly
sequentially (its call trace is start/end pairs in order, never two calls
outstanding) and one row per test case, but its aggregate carries no
passed marking — the rows ignore everything in a test case, including any
provided expected output.  The passed marking of the claim is computed by
the client batch route (over its mock executor, concurrently via
Promise.all): each of its rows is marked by exact-token comparison against
the expected output when one is provided (and non-empty — an empty string
is falsy and falls to the status check), else by status id == 3. -/
theorem batch_sequential_and_route_marking :
    (∀ (tcs : List RunnerTestCase) (exec : Nat → Except JsError SubmissionResult),
        (runBatch tcs exec).2 = seqTrace tcs.length
        ∧ (runBatch tcs exec).1.length = tcs.length)
    ∧ (∀ (tcs1 tcs2 : List RunnerTestCase)
        (exec : Nat → Except JsError SubmissionResult),
        tcs1.map RunnerTestCase.stdin = tcs2.map RunnerTestCase.stdin →
        runBatch tcs1 exec = runBatch tcs2 exec)
    ∧ (∀ (tcs : List ClientTestCase) (exec : Nat → SubmissionResult) (i : Nat),
        i < tcs.length → (tcs.getD i defaultClientTC).expectedOutput ≠ some "" →
        ((routeBatch tcs exec).getD i defaultTCResult).passed
          = claimPassedMarking ((tcs.getD i defaultClientTC).expectedOutput)
              (exec i)) := by
  refine ⟨?_, ?_, ?_⟩
  · intro tcs exec
    exact runBatchAux_trace exec tcs 0
  · intro tcs1 tcs2 exec hmap
    have hlen : tcs1.length = tcs2.length := by
      have := congrArg List.length hmap
      simpa using this
    exact runBatchAux_ignores_extras exec tcs1 tcs2 0 hlen
  · intro tcs exec i hi hne
    have h := routeBatchAux_getD exec tcs 0 i hi
    rw [Nat.zero_add] at h
    have hroute : routeBatch tcs exec = routeBatchAux exec 0 tcs := rfl
    rw [hroute, h]
    exact routePassed_eq_claim _ _ hne

/-- Witness for C4 (amended): a one-case batch yields the one-call
sequential trace, and the client route marks a matching output passed per
the claim formula. -/
theorem batch_sequential_and_route_marking_witness :
    (runBatch [{ stdin := some "5", expected_output := none }]
        (fun _ => .ok accepted42)).2 = seqTrace 1
    ∧ ((routeBatch [{ input := "5", expectedOutput := some "42" }]
        (fun _ => accepted42)).getD 0 defaultTCResult).passed
      = claimPassedMarking (some "42") accepted42 :=
  ⟨(batch_sequential_and_route_marking.1
      [{ stdin := some "5", expected_output := none }] (fun _ => .ok accepted42)).1,
   by
     have h := batch_sequential_and_route_marking.2.2
       [{ input := "5", expectedOutput := some "42" }] (fun _ => accepted42) 0
       (by decide) (by decide)
     simpa using h⟩
